import Mathlib

/-!
Verification of the batched-summarization pipeline of the daily-newsletter
repository: `src/llm.py` (`batch_summarize`, `_build_prompt`,
`_parse_response`, `_extract_arrays_fallback`, `_validate_summary`,
`_fallback_summarize`, `_fallback_section`) and `src/summarizer.py`
(`summarize`).

The embedding is shallow.  Pure repository code is translated into
executable Lean definitions.  Code that is external to the repository is
represented by explicit function parameters ("oracles") over which the
theorems quantify:

* `Lex` — the sumy `LexRankSummarizer` call inside `summarize`
  (external library; `none` models the library raising an exception,
  which `summarize` catches);
* `Bold` — `_bold_key_terms` of `src/summarizer.py`, a regex
  post-processor applied to the summarizer result.  No claim constrains
  its output, so it is kept abstract rather than re-implementing the
  Python regex engine;
* `JL` — Python's `json.loads`;
* the Gemini backend call, modelled as an `Option String` response
  (`none` = the call, or anything else inside the `try` block of
  `batch_summarize`, raised).

Python string primitives (`strip`, `split`, `replace`, slicing, `in`,
`join`) are modelled by structural functions on the character list of a
`String`, matching CPython semantics for the character data that the
pipeline manipulates (ASCII whitespace; `islower` is modelled on ASCII
letters — the only effect of non-ASCII lowercase first characters in the
code is to replace an extractive fallback summary by itself, which never
changes an output value).
-/

namespace Newsletter

set_option maxRecDepth 100000

/-- Characters stripped by Python `str.strip()` / matched by `\s`
(ASCII part; unicode spaces do not occur in the modelled data). -/
def isSpaceChar (c : Char) : Bool :=
  c = ' ' || c = '\t' || c = '\n' || c = '\r' || c = '\x0b' || c = '\x0c'

/-- Python `s.strip()`. -/
def pyTrim (s : String) : String :=
  String.mk (((s.toList.dropWhile isSpaceChar).reverse.dropWhile isSpaceChar).reverse)

/-- Python `s[:n]`. -/
def pyTake (s : String) (n : Nat) : String :=
  String.mk (s.toList.take n)

/-- Python `s[n:]`. -/
def pyDrop (s : String) (n : Nat) : String :=
  String.mk (s.toList.drop n)

/-- Python `s[:-n]` (for `n ≤ len(s)`). -/
def pyDropRight (s : String) (n : Nat) : String :=
  String.mk (s.toList.take (s.toList.length - n))

/-- Python `s.startswith(p)`. -/
def pyStartsWith (s p : String) : Bool :=
  p.toList.isPrefixOf s.toList

/-- Python `s.endswith(p)`. -/
def pyEndsWith (s p : String) : Bool :=
  p.toList.reverse.isPrefixOf s.toList.reverse

/-- Worker for `pySplitOn`: fuel-indexed left-to-right scan. -/
def splitOnAuxL (sep : List Char) : Nat → List Char → List Char → List (List Char)
  | 0, acc, l => [acc.reverse ++ l]
  | _ + 1, acc, [] => [acc.reverse]
  | fuel + 1, acc, c :: t =>
    if sep.isPrefixOf (c :: t) then
      acc.reverse :: splitOnAuxL sep fuel [] ((c :: t).drop sep.length)
    else
      splitOnAuxL sep fuel (c :: acc) t

/-- Python `s.split(sep)` for a non-empty separator (the source only ever
splits on `"."`, `". "`, `"<br>"` and `"\n"`). -/
def pySplitOn (s sep : String) : List String :=
  if sep = "" then [s]
  else (splitOnAuxL sep.toList (s.toList.length + 1) [] s.toList).map String.mk

/-- Worker for `pyReplace`: fuel-indexed left-to-right scan. -/
def replaceAuxL (pat repl : List Char) : Nat → List Char → List Char
  | 0, l => l
  | _ + 1, [] => []
  | fuel + 1, c :: t =>
    if pat.isPrefixOf (c :: t) then
      repl ++ replaceAuxL pat repl fuel ((c :: t).drop pat.length)
    else
      c :: replaceAuxL pat repl fuel t

/-- Python `s.replace(pat, repl)` for a non-empty pattern. -/
def pyReplace (s pat repl : String) : String :=
  if pat = "" then s
  else String.mk (replaceAuxL pat.toList repl.toList (s.toList.length + 1) s.toList)

/-- Python `sep.join(xs)`. -/
def pyJoin (sep : String) : List String → String
  | [] => ""
  | [x] => x
  | x :: y :: t => x ++ sep ++ pyJoin sep (y :: t)

/-- Substring test on character lists (`needle in hay` for Python strings). -/
def listContainsSub (needle : List Char) : List Char → Bool
  | [] => needle.isPrefixOf []
  | c :: t => needle.isPrefixOf (c :: t) || listContainsSub needle t

/-- Python `needle in hay` for strings. -/
def strContains (hay needle : String) : Bool :=
  listContainsSub needle.toList hay.toList

/-- Python `ch in s` for a single character. -/
def pyCharIn (c : Char) (s : String) : Bool :=
  s.toList.contains c

/-- Python `s.rstrip('.')`. -/
def dropTrailingDots (s : String) : String :=
  String.mk ((s.toList.reverse.dropWhile (fun c => c = '.')).reverse)

/-- ASCII lower-casing of one character (models `(?i)` regex matching for
the ASCII pattern alternatives of `_validate_summary`). -/
def asciiLowerChar (c : Char) : Char :=
  if 'A' ≤ c ∧ c ≤ 'Z' then Char.ofNat (c.toNat + 32) else c

/-- ASCII lower-casing of a string. -/
def asciiLower (s : String) : String :=
  String.mk (s.toList.map asciiLowerChar)

/-- Python `c.islower()`, restricted to ASCII letters (see header note). -/
def pyIsLower (c : Char) : Bool :=
  'a' ≤ c && c ≤ 'z'

/-! ## Data model -/

/-- The four section keys handled by `_parse_response` and
`_fallback_summarize` (`src/llm.py`): `("news", "ai_security_news",
"podcasts", "papers")`. -/
def sectionKeys : List String := ["news", "ai_security_news", "podcasts", "papers"]

/-- One unit of summarizable content: an input dict with optional string
fields `title` and `raw_text` (an absent key is `none`). -/
structure ContentItem where
  title : Option String
  raw_text : Option String

/-- Python `d.get(k, dflt)` on a dict modelled as an association list. -/
def dgetD {α : Type} (d : List (String × α)) (k : String) (dflt : α) : α :=
  match d.find? (fun p => p.1 == k) with
  | some p => p.2
  | none => dflt

/-- A `SectionBatch`: the `sections` dict given to `batch_summarize`. -/
abbrev Sections := List (String × List ContentItem)

/-- Oracle for the sumy `LexRankSummarizer` call in `summarize`
(`src/summarizer.py`): given the text and the sentence count, `some s`
is the joined string of the selected sentences, `none` means the
library raised (caught by `summarize`). -/
abbrev Lex := String → Nat → Option String

/-- Abstract stand-in for `_bold_key_terms summary title`
(`src/summarizer.py`): a pure string post-processor whose output no
claim constrains. -/
abbrev Bold := String → String → String

/-! ## `src/summarizer.py` -/

/-- `summarize(text, num_sentences, title)` from `src/summarizer.py`. -/
def summarize (lex : Lex) (bold : Bold) (text : String) (num_sentences : Nat)
    (title : String) : String :=
  if text = "" ∨ pyTrim text = "" then ""
  else
    let sentences_rough :=
      (((pySplitOn (pyReplace (pyReplace text "! " ".\n") "? " ".\n") ".").map
        pyTrim).filter (fun s => s ≠ ""))
    if sentences_rough.length ≤ num_sentences then pyTrim text
    else
      match lex text num_sentences with
      | some res =>
        let result := if pyTrim res ≠ "" then res else pyTrim (pyTake text 300)
        bold result title
      | none =>
        bold (pyJoin ". " (sentences_rough.take num_sentences) ++ ".") title

/-! ## `src/llm.py`: extractive fallback -/

/-- The per-section emoji table of `_fallback_section` (`src/llm.py`
lines 314-320), with the exact character sequences stored in the source
file (they are a mojibake rendering of the original emoji, kept
verbatim because the file as given is the authority). -/
def sectionEmojis (section_type : String) : List String :=
  dgetD
    [("news",
      ["\u011F\u0178\u201C\u00B0", "\u011F\u0178\u201C\u00A2", "\u011F\u0178\u201D"]),
     ("ai_security_news",
      ["\u011F\u0178\u203A\u00A1\u00EF\u00B8", "\u011F\u0178\u201D",
       "\u00E2\u0161\u00A0\u00EF\u00B8"]),
     ("podcasts",
      ["\u011F\u0178\u00AF", "\u00E2\u0161\u00A1", "\u011F\u0178\u201C\u0160"]),
     ("papers",
      ["\u011F\u0178\u00A7\u00A0", "\u011F\u0178\u201C\u0160",
       "\u00E2\u0161\u2122\u00EF\u00B8"])]
    section_type
    ["\u011F\u0178\u201C\u0152", "\u011F\u0178\u201C", "\u011F\u0178\u201D\u00B9"]

/-- The body of the per-item loop of `_fallback_section` (`src/llm.py`
lines 322-335); `_fallback_section` itself maps this over its items. -/
def fallback_item (lex : Lex) (bold : Bold) (section_type : String)
    (item : ContentItem) : String :=
  let section_emojis := sectionEmojis section_type
  let e0 := section_emojis.headD ""
  let raw := summarize lex bold (item.raw_text.getD "") 3 (item.title.getD "")
  if raw = "" ∨ (pyTrim raw).length < 20 then
    e0 ++ " " ++ item.title.getD "No summary available."
  else
    let sentences :=
      ((pySplitOn (pyReplace raw "<br>" " ") ". ").map pyTrim).filter (fun s => s ≠ "")
    let bullets :=
      (sentences.take 3).mapIdx (fun j sent =>
        section_emojis.getD (j % section_emojis.length) "" ++ " " ++
          dropTrailingDots sent ++ ".")
    if bullets = [] then e0 ++ " " ++ raw
    else pyJoin "<br>" bullets

/-- `_fallback_section(items, section_type)` from `src/llm.py`. -/
def fallback_section (lex : Lex) (bold : Bold) (items : List ContentItem)
    (section_type : String) : List String :=
  items.map (fallback_item lex bold section_type)

/-- `_fallback_summarize(sections)` from `src/llm.py`. -/
def fallback_summarize (lex : Lex) (bold : Bold) (sections : Sections) :
    List (String × List String) :=
  sectionKeys.map (fun key => (key, fallback_section lex bold (dgetD sections key []) key))

/-! ## `src/llm.py`: validator -/

/-- The verdict taxonomy of `_validate_summary` (`src/llm.py` lines
242-301): the source returns `None` for a valid summary and a
descriptive message string otherwise; the messages are abstracted to
one label per branch, in source order. -/
inductive Reason where
  | tooShort
  | fewBullets
  | lowercaseStart
  | urlStart
  | rawIndicator
  | cutOff
  | vagueFiller
  deriving DecidableEq

/-- The character class of the emoji regex compiled in
`_validate_summary` (`src/llm.py` lines 253-258). -/
def isEmojiClass (c : Char) : Bool :=
  let n := c.toNat
  decide ((0x1F300 ≤ n ∧ n ≤ 0x1FAFF) ∨ (0x2600 ≤ n ∧ n ≤ 0x27BF) ∨
    (0x2702 ≤ n ∧ n ≤ 0x27B0) ∨ (0xFE00 ≤ n ∧ n ≤ 0xFE0F) ∨ n = 0x200D ∨
    (0x2194 ≤ n ∧ n ≤ 0x2199) ∨ (0x23E9 ≤ n ∧ n ≤ 0x23F3) ∨
    (0x25AA ≤ n ∧ n ≤ 0x25FE) ∨ (0x2934 ≤ n ∧ n ≤ 0x2935) ∨
    n = 0x203C ∨ n = 0x2049 ∨ n = 0x2122 ∨ n = 0x2139 ∨ n = 0x2328 ∨ n = 0x23CF)

/-- The `raw_indicators` list of `_validate_summary`. -/
def raw_indicators : List String :=
  ["This episode", "Today\x27s show:", "made possible by:",
   "https://Gusto.com", "calderalab.com", "circle.so"]

/-- The allowed terminal characters of `_validate_summary` (line 285):
the literal `".!?)\"\x27â€¦>0123456789%"` of the source file, membership
tested character-wise as Python `in` does.  (The three characters
`â€¦` are the mojibake rendering of an ellipsis, kept
verbatim from the file.) -/
def terminalChars : List Char :=
  ['.', '!', '?', ')', '"', '\x27', '\u00E2', '\u20AC', '\u00A6', '>',
   '0', '1', '2', '3', '4', '5', '6', '7', '8', '9', '%']

/-- Literal expansions of the first vague-filler regex
`(?i)the (?:podcast|episode|article|paper|discussion)
(?:discussed|explores?|highlights?|focused on|suggests?|argues?)`:
a case-insensitive search for this pattern succeeds iff one of these
lower-case literals occurs in the lower-cased text (`explores?` is
covered by its mandatory prefix `explore`, since any occurrence of
`explores` contains an occurrence of `explore`). -/
def vague1 : List String :=
  (["podcast", "episode", "article", "paper", "discussion"].map (fun x =>
    ["discussed", "explore", "highlight", "focused on", "suggest", "argue"].map
      (fun y => "the " ++ x ++ " " ++ y))).flatten

/-- Literal expansions of the second vague-filler regex
`(?i)(?:might|could|may) (?:pose|create|introduce|present)
(?:inherent |potential |new )?(?:problems|challenges|issues|concerns)`. -/
def vague2 : List String :=
  (["might", "could", "may"].map (fun x =>
    (["pose", "create", "introduce", "present"].map (fun y =>
      (["", "inherent ", "potential ", "new "].map (fun o =>
        ["problems", "challenges", "issues", "concerns"].map (fun z =>
          x ++ " " ++ y ++ " " ++ o ++ z))).flatten)).flatten)).flatten

/-- Literal expansions of the third vague-filler regex
`(?i)(?:significant|substantial|considerable)
(?:increase|decrease|impact|implications)`. -/
def vague3 : List String :=
  (["significant", "substantial", "considerable"].map (fun x =>
    ["increase", "decrease", "impact", "implications"].map (fun y =>
      x ++ " " ++ y))).flatten

/-- Literal expansions of the fourth vague-filler regex
`(?i)(?:is (?:critical|essential|important|key|crucial)|remains challenging)`. -/
def vague4 : List String :=
  ["is critical", "is essential", "is important", "is key", "is crucial",
   "remains challenging"]

/-- Literal expansions of the fifth vague-filler regex
`(?i)experienced a (?:significant|notable|substantial)
(?:increase|decrease|growth|decline)`. -/
def vague5 : List String :=
  (["significant", "notable", "substantial"].map (fun x =>
    ["increase", "decrease", "growth", "decline"].map (fun y =>
      "experienced a " ++ x ++ " " ++ y))).flatten

/-- `re.search` of any of the five `vague_patterns` on the given
(already stripped) text. -/
def matchesVague (stripped : String) : Bool :=
  [vague1, vague2, vague3, vague4, vague5].any (fun alts =>
    alts.any (fun a => strContains (asciiLower stripped) a))

/-- `_validate_summary(summary)` from `src/llm.py`: `none` = valid. -/
def validate_summary (summary : String) : Option Reason :=
  if summary = "" ∨ (pyTrim summary).length < 10 then some .tooShort
  else
    let emoji_count := (summary.toList.filter isEmojiClass).length
    let bullet_count := (pySplitOn summary "<br>").length
    if emoji_count < 2 ∧ bullet_count < 2 then some .fewBullets
    else
      let stripped := pyTrim summary
      if pyIsLower (stripped.toList.headD 'A') then some .lowercaseStart
      else if pyStartsWith stripped "http://" || pyStartsWith stripped "https://" then
        some .urlStart
      else if raw_indicators.any (fun ind => strContains summary ind) then
        some .rawIndicator
      else
        let notCut :=
          match stripped.toList.getLast? with
          | some c => terminalChars.contains c
          | none => true
        if notCut = false then some .cutOff
        else if matchesVague stripped then some .vagueFiller
        else none

/-! ## `src/llm.py`: response parsing and reconciliation -/

/-- Per-position description of the count-fix + validation pass of
`_parse_response` (lines 218-237): position `i` of the final array is
the candidate at `i` when one exists and passes validation, and the
extractive fallback of input item `i` otherwise.  It is related to
`reconcile_section` by `reconcile_section_get?`. -/
def reconcile_item (lex : Lex) (bold : Bold) (key : String) (item : ContentItem) :
    Option String → String
  | none => fallback_item lex bold key item
  | some c =>
    match validate_summary c with
    | some _ => fallback_item lex bold key item
    | none => c

/-- The count-fixing phase of the per-key loop of `_parse_response`
(`src/llm.py` lines 220-228): truncate the candidate array when it is
longer than expected, pad its tail with `_fallback_section` over the
unmatched trailing input items when it is shorter.  The replacement
`_fallback_section([items[i]], key)[0]` used later is `fallback_item`,
since `_fallback_section` maps its item list pointwise. -/
def reconcile_padded (lex : Lex) (bold : Bold) (key : String)
    (items : List ContentItem) (got0 : List String) : List String :=
  if items.length < got0.length then got0.take items.length
  else if got0.length < items.length then
    got0 ++ fallback_section lex bold (items.drop got0.length) key
  else got0

/-- The validation pass of `_parse_response` (lines 229-237) applied to
the count-fixed array: each position is read once and replaced in place
when `_validate_summary` rejects it, so the loop is a pointwise map over
candidate/item pairs (`i` ranges over `got`, whose length equals
`len(items)` after `reconcile_padded`). -/
def reconcile_section (lex : Lex) (bold : Bold) (key : String)
    (items : List ContentItem) (got0 : List String) : List String :=
  List.zipWith
    (fun s item =>
      match validate_summary s with
      | some _ => fallback_item lex bold key item
      | none => s)
    (reconcile_padded lex bold key items got0) items

/-- The `result` dict built by `_parse_response` from parsed data
`data` (lines 218-239): one entry per key of `sectionKeys`, in order. -/
def reconcile_all (lex : Lex) (bold : Bold) (data : List (String × List String))
    (sections : Sections) : List (String × List String) :=
  sectionKeys.map (fun key =>
    (key, reconcile_section lex bold key (dgetD sections key []) (dgetD data key [])))

/-- Outcome of one Python `json.loads` call on a given string:
`fail` = `json.JSONDecodeError`; `ok data` = a dict whose relevant
entries are arrays of strings (the only shape the reconciler consumes
without raising); `illTyped` = any other parsed value, which makes the
reconciliation code raise a non-`JSONDecodeError` exception that
propagates out of `_parse_response`. -/
inductive JLoads where
  | fail
  | illTyped
  | ok (data : List (String × List String))

/-- Oracle for Python's `json.loads` (standard library). -/
abbrev JL := String → JLoads

/-- The markdown code-fence stripping of `_parse_response`
(lines 194-199). -/
def strip_code_fences (text : String) : String :=
  let cleaned := pyTrim text
  if pyStartsWith cleaned "```" then
    let cleaned :=
      if cleaned.toList.contains '\n' then
        pyJoin "\n" ((pySplitOn cleaned "\n").drop 1)
      else pyDrop cleaned 3
    let cleaned := if pyEndsWith cleaned "```" then pyDropRight cleaned 3 else cleaned
    pyTrim cleaned
  else cleaned

/-- Worker for `fixTrailingCommas`: fuel-indexed left-to-right scan
deleting every `,\s*` run that precedes a `}` or `]`, continuing after
the bracket, exactly as `re.sub` does with the pattern
`,\s*([}\]])` and replacement `\1`. -/
def fixCommasAux : Nat → List Char → List Char
  | 0, l => l
  | _ + 1, [] => []
  | fuel + 1, c :: t =>
    if c = ',' then
      match t.dropWhile isSpaceChar with
      | b :: rest =>
        if b = '}' ∨ b = ']' then b :: fixCommasAux fuel rest
        else c :: fixCommasAux fuel t
      | [] => c :: fixCommasAux fuel t
    else c :: fixCommasAux fuel t

/-- The trailing-comma repair of `_parse_response` (line 207):
`re.sub(r',\s*([}\]])', r'\1', cleaned)`. -/
def fixTrailingCommas (s : String) : String :=
  String.mk (fixCommasAux (s.toList.length + 1) s.toList)

/-- Matcher for the regex `"{key}"\s*:\s*\[` of
`_extract_arrays_fallback` at the current position: on success returns
the characters following the opening bracket (`match.end()`). -/
def matchKeyTail (keyChars : List Char) : List Char → Option (List Char)
  | '"' :: rest =>
    if keyChars.isPrefixOf rest then
      match rest.drop keyChars.length with
      | '"' :: rest2 =>
        match rest2.dropWhile isSpaceChar with
        | ':' :: rest3 =>
          match rest3.dropWhile isSpaceChar with
          | '[' :: rest4 => some rest4
          | _ => none
        | _ => none
      | _ => none
    else none
  | _ => none

/-- `re.search` of `"{key}"\s*:\s*\[`: leftmost match. -/
def findKeyArray (keyChars : List Char) : List Char → Option (List Char)
  | [] => none
  | c :: rest =>
    match matchKeyTail keyChars (c :: rest) with
    | some r => some r
    | none => findKeyArray keyChars rest

/-- The bracket-depth scan of `_extract_arrays_fallback` (lines
156-163): number of characters consumed by the `while` loop starting
just after the opening bracket at the given depth.  The extracted
`array_content` is `text[start:i-1]`, i.e. the first
`consumeCount 1 l - 1` characters. -/
def consumeCount : Nat → List Char → Nat
  | _, [] => 0
  | depth, c :: rest =>
    let depth' := if c = '[' then depth + 1 else if c = ']' then depth - 1 else depth
    if depth' = 0 then 1 else 1 + consumeCount depth' rest

/-- The character-by-character quoted-string splitter of
`_extract_arrays_fallback` (lines 167-182).  Arguments: remaining
characters, previous character (`none` at position 0), `in_str`,
reversed current item, reversed collected items. -/
def splitItemsAux : List Char → Option Char → Bool → List Char → List String → List String
  | [], _, _, current, items =>
    (if current.isEmpty then items else String.mk current.reverse :: items).reverse
  | ch :: rest, prev, in_str, current, items =>
    if ch = '"' ∧ prev ≠ some '\\' then
      let in_str' := !in_str
      if in_str' ∧ current.isEmpty then
        splitItemsAux rest (some ch) in_str' current items
      else if !in_str' then
        splitItemsAux rest (some ch) in_str' [] (String.mk current.reverse :: items)
      else
        splitItemsAux rest (some ch) in_str' (ch :: current) items
    else if in_str then
      splitItemsAux rest (some ch) in_str (ch :: current) items
    else
      splitItemsAux rest (some ch) in_str current items

/-- Splits an extracted `array_content` into its quoted-string items. -/
def splitItems (content : List Char) : List String :=
  splitItemsAux content none false [] []

/-- `_extract_arrays_fallback(text, sections)` from `src/llm.py` (the
`sections` parameter is unused by the source function): for each of the
four keys, in order, locate `"{key}"\s*:\s*\[`, scan to the matching
bracket, and split the content into quoted items; return `none` iff no
key was found. -/
def extract_arrays_fallback (text : String) : Option (List (String × List String)) :=
  let entries := sectionKeys.filterMap (fun key =>
    match findKeyArray key.toList text.toList with
    | some afterBracket =>
      some (key, splitItems (afterBracket.take (consumeCount 1 afterBracket - 1)))
    | none => none)
  if entries.isEmpty then none else some entries

/-- `_parse_response(text, sections)` from `src/llm.py`.  `none` models
an exception propagating out of the function (terminal parse failure,
or an ill-typed parsed value); `batch_summarize` catches it. -/
def parse_response (jl : JL) (lex : Lex) (bold : Bold) (text : String)
    (sections : Sections) : Option (List (String × List String)) :=
  let cleaned := strip_code_fences text
  match jl cleaned with
  | .ok data => some (reconcile_all lex bold data sections)
  | .illTyped => none
  | .fail =>
    let fixed := fixTrailingCommas cleaned
    match jl fixed with
    | .ok data => some (reconcile_all lex bold data sections)
    | .illTyped => none
    | .fail =>
      match extract_arrays_fallback fixed with
      | some data => some (reconcile_all lex bold data sections)
      | none => none

/-! ## `src/llm.py`: `batch_summarize` -/

/-- Python truthiness of `os.getenv("GEMINI_API_KEY")`: an unset or
empty variable is falsy. -/
def pyTruthy : Option String → Bool
  | none => false
  | some s => s ≠ ""

/-- Whether `_build_prompt(sections)` completes without raising.  On a
batch whose items carry string fields, its only failure mode is the
subscript `item["title"]` (`KeyError`) for an item lacking a title;
everything else it computes is pure string formatting that only feeds
the backend call, which is an oracle here. -/
def build_prompt_ok (sections : Sections) : Bool :=
  sectionKeys.all (fun key => (dgetD sections key []).all (fun it => it.title.isSome))

/-- `batch_summarize(sections)` from `src/llm.py`.

`api_key` is `os.getenv("GEMINI_API_KEY")`; `backend` is the Gemini
call: `some text` is `response.text`, `none` means the call (or
anything else inside the `try` block before parsing) raised.  The
result is `none` only when an exception escapes `batch_summarize`
itself, which can only happen in `_build_prompt`, called outside the
`try` block. -/
def batch_summarize (jl : JL) (lex : Lex) (bold : Bold) (api_key : Option String)
    (backend : Option String) (sections : Sections) :
    Option (List (String × List String)) :=
  if ¬ pyTruthy api_key then some (fallback_summarize lex bold sections)
  else if ¬ build_prompt_ok sections then none
  else
    match backend with
    | none => some (fallback_summarize lex bold sections)
    | some resp =>
      match parse_response jl lex bold resp sections with
      | some result => some result
      | none => some (fallback_summarize lex bold sections)

/-! ## Concrete fixtures used by witness theorems -/

/-- A lex oracle for concrete runs: the library raises, so `summarize`
takes its deterministic except-branch. -/
def lex0 : Lex := fun _ _ => none

/-- A bold oracle for concrete runs: the identity post-processor. -/
def bold0 : Bold := fun s _ => s

/-- A `json.loads` oracle for concrete runs: every parse raises
`JSONDecodeError`. -/
def jl0 : JL := fun _ => .fail

/-- A concrete news item. -/
def itemA : ContentItem := ⟨some "Fed cuts rates", some "Rates fell sharply this quarter."⟩

/-- A second concrete item. -/
def itemB : ContentItem := ⟨some "Beta title", some "Beta body text."⟩

/-- A third concrete item. -/
def itemC : ContentItem := ⟨some "Gamma title", some "Gamma body text."⟩

/-- A concrete single-item batch. -/
def sectsA : Sections := [("news", [itemA])]

/-- A concrete three-item batch. -/
def sectsABC : Sections := [("news", [itemA, itemB, itemC])]

/-- A concrete batch carrying a key outside the four section keys. -/
def sectsX : Sections := [("extra", [itemB]), ("news", [itemA])]

/-- A candidate summary that passes `_validate_summary`. -/
def candOK : String := "Alpha beta gamma.<br>Delta epsilon."

/-- A candidate summary that fails `_validate_summary` (too short). -/
def candBad : String := "bad"

/-- The first validator example string of the spec. -/
def vagueExample : String := "the episode discusses AI trends and raises questions"

/-- The second validator example string of the spec (with the real
emoji of the spec text). -/
def validExample : String :=
  "🎯 OpenAI raised $40B in March 2025.<br>📊 Valuation hit $300B."

/-- A backend response on which every parse stage fails. -/
def respBad : String := "no json here at all"

/-! ## Helper lemmas -/

theorem str_eq_empty_of_length {s : String} (h : s.length = 0) : s = "" := by
  cases s with
  | mk data =>
    cases data with
    | nil => rfl
    | cons c t => simp [String.length] at h

theorem append_ne_empty_left (a b : String) (ha : a ≠ "") : a ++ b ≠ "" := by
  intro he
  apply ha
  apply str_eq_empty_of_length
  have h2 : a.length + b.length = ("" : String).length := by
    rw [← String.length_append, he]
  have h3 : ("" : String).length = 0 := rfl
  omega

theorem pyJoin_cons_ne_empty (sep x : String) (xs : List String) (hx : x ≠ "") :
    pyJoin sep (x :: xs) ≠ "" := by
  cases xs with
  | nil => simpa [pyJoin] using hx
  | cons y t =>
    show x ++ sep ++ pyJoin sep (y :: t) ≠ ""
    exact append_ne_empty_left _ _ (append_ne_empty_left _ _ hx)

theorem sectionEmojis_spec (k : String) :
    ∃ e1 e2 e3, sectionEmojis k = [e1, e2, e3] ∧ e1 ≠ "" := by
  unfold sectionEmojis dgetD
  simp only [List.find?]
  cases h1 : (("news" : String) == k)
  · cases h2 : (("ai_security_news" : String) == k)
    · cases h3 : (("podcasts" : String) == k)
      · cases h4 : (("papers" : String) == k)
        · exact ⟨_, _, _, rfl, by decide⟩
        · exact ⟨_, _, _, rfl, by decide⟩
      · exact ⟨_, _, _, rfl, by decide⟩
    · exact ⟨_, _, _, rfl, by decide⟩
  · exact ⟨_, _, _, rfl, by decide⟩

theorem bullets_ne_empty (e1 e2 e3 : String) (he1 : e1 ≠ "") (l : List String)
    (hne : l.mapIdx (fun j sent =>
        ([e1, e2, e3] : List String).getD (j % ([e1, e2, e3] : List String).length) ""
          ++ " " ++ dropTrailingDots sent ++ ".") ≠ []) :
    pyJoin "<br>" (l.mapIdx (fun j sent =>
        ([e1, e2, e3] : List String).getD (j % ([e1, e2, e3] : List String).length) ""
          ++ " " ++ dropTrailingDots sent ++ ".")) ≠ "" := by
  cases l with
  | nil => simp at hne
  | cons s0 rest =>
    rw [List.mapIdx_cons]
    apply pyJoin_cons_ne_empty
    have h0 :
        ([e1, e2, e3] : List String).getD (0 % ([e1, e2, e3] : List String).length) "" = e1 := by
      rfl
    rw [h0]
    exact append_ne_empty_left _ _ (append_ne_empty_left _ _ (append_ne_empty_left _ _ he1))

theorem fallback_item_ne_empty (lex : Lex) (bold : Bold) (key : String)
    (item : ContentItem) : fallback_item lex bold key item ≠ "" := by
  obtain ⟨e1, e2, e3, hE, he1⟩ := sectionEmojis_spec key
  unfold fallback_item
  rw [hE]
  simp only [List.headD]
  split
  · exact append_ne_empty_left _ _ (append_ne_empty_left _ _ he1)
  · split
    · exact append_ne_empty_left _ _ (append_ne_empty_left _ _ he1)
    · rename_i hbul
      exact bullets_ne_empty e1 e2 e3 he1 _ hbul

theorem reconcile_padded_length (lex : Lex) (bold : Bold) (key : String)
    (items : List ContentItem) (got0 : List String) :
    (reconcile_padded lex bold key items got0).length = items.length := by
  unfold reconcile_padded
  split
  · simp; omega
  · split
    · simp [fallback_section]; omega
    · omega

theorem reconcile_padded_get? (lex : Lex) (bold : Bold) (key : String)
    (items : List ContentItem) (got0 : List String) (i : Nat) (it : ContentItem)
    (hit : items[i]? = some it) :
    (reconcile_padded lex bold key items got0)[i]? =
      some (got0[i]?.getD (fallback_item lex bold key it)) := by
  have hi : i < items.length := by
    rcases List.getElem?_eq_some_iff.mp hit with ⟨h, _⟩
    exact h
  unfold reconcile_padded
  by_cases h1 : items.length < got0.length
  · rw [if_pos h1, List.getElem?_take_of_lt hi]
    cases hgc : got0[i]? with
    | none =>
      have := List.getElem?_eq_none_iff.mp hgc
      omega
    | some c => simp
  · rw [if_neg h1]
    by_cases h2 : got0.length < items.length
    · rw [if_pos h2]
      by_cases hlt : i < got0.length
      · rw [List.getElem?_append_left hlt]
        cases hgc : got0[i]? with
        | none =>
          have := List.getElem?_eq_none_iff.mp hgc
          omega
        | some c => simp
      · have hge : got0.length ≤ i := Nat.le_of_not_lt hlt
        rw [List.getElem?_append_right hge]
        have hnone : got0[i]? = none := List.getElem?_eq_none hge
        rw [hnone]
        simp only [fallback_section, List.getElem?_map, List.getElem?_drop]
        have hidx : got0.length + (i - got0.length) = i := by omega
        rw [hidx, hit]
        simp
    · rw [if_neg h2]
      cases hgc : got0[i]? with
      | none =>
        have := List.getElem?_eq_none_iff.mp hgc
        omega
      | some c => simp

theorem reconcile_section_get? (lex : Lex) (bold : Bold) (key : String)
    (items : List ContentItem) (got0 : List String) (i : Nat) (it : ContentItem)
    (hit : items[i]? = some it) :
    (reconcile_section lex bold key items got0)[i]? =
      some (reconcile_item lex bold key it got0[i]?) := by
  unfold reconcile_section
  rw [List.getElem?_zipWith, reconcile_padded_get? lex bold key items got0 i it hit, hit]
  cases hgc : got0[i]? with
  | none =>
    simp only [Option.getD]
    cases hv : validate_summary (fallback_item lex bold key it) <;>
      simp [reconcile_item, hv]
  | some c =>
    simp only [Option.getD]
    cases hv : validate_summary c <;> simp [reconcile_item, hv]

theorem reconcile_section_length (lex : Lex) (bold : Bold) (key : String)
    (items : List ContentItem) (got0 : List String) :
    (reconcile_section lex bold key items got0).length = items.length := by
  unfold reconcile_section
  rw [List.length_zipWith, reconcile_padded_length]
  omega

theorem reconcile_section_nil (lex : Lex) (bold : Bold) (key : String)
    (items : List ContentItem) :
    reconcile_section lex bold key items [] = fallback_section lex bold items key := by
  apply List.ext_getElem?
  intro i
  cases hit : items[i]? with
  | none =>
    have hlen : items.length ≤ i := List.getElem?_eq_none_iff.mp hit
    have h1 : (reconcile_section lex bold key items [])[i]? = none := by
      apply List.getElem?_eq_none
      rw [reconcile_section_length]
      exact hlen
    have h2 : (fallback_section lex bold items key)[i]? = none := by
      apply List.getElem?_eq_none
      simpa [fallback_section] using hlen
    rw [h1, h2]
  | some it =>
    rw [reconcile_section_get? lex bold key items [] i it hit]
    simp [fallback_section, hit, reconcile_item]

theorem dgetD_map_mem {α : Type} (F : String → α) (d : α) :
    ∀ (ks : List String) (k : String), k ∈ ks →
      dgetD (ks.map (fun x => (x, F x))) k d = F k
  | [], k, h => by simp at h
  | k0 :: t, k, h => by
    by_cases he : k0 = k
    · subst he
      simp [dgetD, List.find?]
    · have hmem : k ∈ t := by
        rcases List.mem_cons.mp h with h2 | h2
        · exact absurd h2.symm he
        · exact h2
      have ih := dgetD_map_mem F d t k hmem
      simp only [dgetD, List.map_cons, List.find?] at ih ⊢
      rw [beq_false_of_ne he]
      exact ih

theorem dgetD_map_not_mem {α : Type} (F : String → α) (d : α) :
    ∀ (ks : List String) (k : String), k ∉ ks →
      dgetD (ks.map (fun x => (x, F x))) k d = d
  | [], _, _ => rfl
  | k0 :: t, k, h => by
    have hne : k0 ≠ k := fun he => h (he ▸ List.mem_cons_self k0 t)
    have hnt : k ∉ t := fun ht => h (List.mem_cons_of_mem k0 ht)
    have ih := dgetD_map_not_mem F d t k hnt
    simp only [dgetD, List.map_cons, List.find?] at ih ⊢
    rw [beq_false_of_ne hne]
    exact ih

theorem reconcile_all_get (lex : Lex) (bold : Bold)
    (data : List (String × List String)) (sections : Sections) (k : String)
    (hk : k ∈ sectionKeys) :
    dgetD (reconcile_all lex bold data sections) k [] =
      reconcile_section lex bold k (dgetD sections k []) (dgetD data k []) := by
  unfold reconcile_all
  exact dgetD_map_mem _ _ sectionKeys k hk

theorem reconcile_all_keys (lex : Lex) (bold : Bold)
    (data : List (String × List String)) (sections : Sections) :
    (reconcile_all lex bold data sections).map Prod.fst = sectionKeys := by
  unfold reconcile_all
  simp [sectionKeys]

theorem fallback_summarize_get (lex : Lex) (bold : Bold) (sections : Sections)
    (k : String) (hk : k ∈ sectionKeys) :
    dgetD (fallback_summarize lex bold sections) k [] =
      fallback_section lex bold (dgetD sections k []) k := by
  unfold fallback_summarize
  exact dgetD_map_mem _ _ sectionKeys k hk

theorem fallback_summarize_eq_reconcile_nil (lex : Lex) (bold : Bold)
    (sections : Sections) :
    fallback_summarize lex bold sections = reconcile_all lex bold [] sections := by
  unfold fallback_summarize reconcile_all
  apply List.map_congr_left
  intro k _
  have hnil : dgetD ([] : List (String × List String)) k ([] : List String) = [] := rfl
  rw [hnil, reconcile_section_nil]

theorem parse_response_shape (jl : JL) (lex : Lex) (bold : Bold) (text : String)
    (sections : Sections) (r : List (String × List String))
    (h : parse_response jl lex bold text sections = some r) :
    ∃ data, r = reconcile_all lex bold data sections := by
  simp only [parse_response] at h
  split at h
  · exact ⟨_, (Option.some_inj.mp h).symm⟩
  · cases h
  · split at h
    · exact ⟨_, (Option.some_inj.mp h).symm⟩
    · cases h
    · split at h
      · exact ⟨_, (Option.some_inj.mp h).symm⟩
      · cases h

theorem batch_summarize_shape (jl : JL) (lex : Lex) (bold : Bold)
    (api_key backend : Option String) (sections : Sections)
    (out : List (String × List String))
    (h : batch_summarize jl lex bold api_key backend sections = some out) :
    ∃ data, out = reconcile_all lex bold data sections := by
  simp only [batch_summarize] at h
  split at h
  · exact ⟨[], by
      rw [← fallback_summarize_eq_reconcile_nil]
      exact (Option.some_inj.mp h).symm⟩
  · split at h
    · cases h
    · split at h
      · exact ⟨[], by
          rw [← fallback_summarize_eq_reconcile_nil]
          exact (Option.some_inj.mp h).symm⟩
      · split at h
        · rename_i r hr
          obtain ⟨d, hd⟩ := parse_response_shape jl lex bold _ sections r hr
          refine ⟨d, ?_⟩
          rw [← Option.some_inj.mp h, hd]
        · exact ⟨[], by
            rw [← fallback_summarize_eq_reconcile_nil]
            exact (Option.some_inj.mp h).symm⟩


theorem build_prompt_ok_congr (s1 s2 : Sections)
    (h : ∀ k ∈ sectionKeys, dgetD s1 k [] = dgetD s2 k []) :
    build_prompt_ok s1 = build_prompt_ok s2 := by
  unfold build_prompt_ok
  simp only [sectionKeys, List.all_cons, List.all_nil]
  rw [h "news" (by simp [sectionKeys]), h "ai_security_news" (by simp [sectionKeys]),
    h "podcasts" (by simp [sectionKeys]), h "papers" (by simp [sectionKeys])]

theorem fallback_summarize_congr (lex : Lex) (bold : Bold) (s1 s2 : Sections)
    (h : ∀ k ∈ sectionKeys, dgetD s1 k [] = dgetD s2 k []) :
    fallback_summarize lex bold s1 = fallback_summarize lex bold s2 := by
  unfold fallback_summarize
  simp only [sectionKeys, List.map_cons, List.map_nil]
  rw [h "news" (by simp [sectionKeys]), h "ai_security_news" (by simp [sectionKeys]),
    h "podcasts" (by simp [sectionKeys]), h "papers" (by simp [sectionKeys])]

theorem reconcile_all_congr (lex : Lex) (bold : Bold)
    (data : List (String × List String)) (s1 s2 : Sections)
    (h : ∀ k ∈ sectionKeys, dgetD s1 k [] = dgetD s2 k []) :
    reconcile_all lex bold data s1 = reconcile_all lex bold data s2 := by
  unfold reconcile_all
  simp only [sectionKeys, List.map_cons, List.map_nil]
  rw [h "news" (by simp [sectionKeys]), h "ai_security_news" (by simp [sectionKeys]),
    h "podcasts" (by simp [sectionKeys]), h "papers" (by simp [sectionKeys])]

theorem parse_response_congr (jl : JL) (lex : Lex) (bold : Bold) (text : String)
    (s1 s2 : Sections) (h : ∀ k ∈ sectionKeys, dgetD s1 k [] = dgetD s2 k []) :
    parse_response jl lex bold text s1 = parse_response jl lex bold text s2 := by
  simp only [parse_response]
  cases h1 : jl (strip_code_fences text) with
  | ok data => simp only [reconcile_all_congr lex bold data s1 s2 h]
  | illTyped => rfl
  | fail =>
    cases h2 : jl (fixTrailingCommas (strip_code_fences text)) with
    | ok data => simp only [reconcile_all_congr lex bold data s1 s2 h]
    | illTyped => rfl
    | fail =>
      cases h3 : extract_arrays_fallback (fixTrailingCommas (strip_code_fences text)) with
      | some data => simp only [reconcile_all_congr lex bold data s1 s2 h]
      | none => rfl

theorem batch_summarize_congr (jl : JL) (lex : Lex) (bold : Bold)
    (api_key backend : Option String) (s1 s2 : Sections)
    (h : ∀ k ∈ sectionKeys, dgetD s1 k [] = dgetD s2 k []) :
    batch_summarize jl lex bold api_key backend s1 =
      batch_summarize jl lex bold api_key backend s2 := by
  simp only [batch_summarize]
  rw [build_prompt_ok_congr s1 s2 h, fallback_summarize_congr lex bold s1 s2 h]
  cases backend with
  | none => rfl
  | some resp => simp only [parse_response_congr jl lex bold resp s1 s2 h]

/-! ## Claims -/

/-- C1: for every valid `SectionBatch` input (every key drawn from the
four section keys) and every completed pipeline run, the output list
for each key present in the input has the same length as that key's
input list, and position `i` of the output is the reconciliation of
input item `i` with the `i`-th backend candidate — exactly one summary
per input item, in input order. -/
theorem c1_length_and_order (jl : JL) (lex : Lex) (bold : Bold)
    (api_key backend : Option String) (sections : Sections)
    (out : List (String × List String))
    (hvalid : ∀ p ∈ sections, p.1 ∈ sectionKeys)
    (hrun : batch_summarize jl lex bold api_key backend sections = some out) :
    ∀ k ∈ sections.map Prod.fst,
      (dgetD out k []).length = (dgetD sections k []).length ∧
      ∀ (i : Nat) (it : ContentItem), (dgetD sections k [])[i]? = some it →
        ∃ cand : Option String,
          (dgetD out k [])[i]? = some (reconcile_item lex bold k it cand) := by
  obtain ⟨data, hd⟩ := batch_summarize_shape jl lex bold api_key backend sections out hrun
  subst hd
  intro k hk
  have hkk : k ∈ sectionKeys := by
    obtain ⟨p, hp, hpk⟩ := List.mem_map.mp hk
    exact hpk ▸ hvalid p hp
  rw [reconcile_all_get lex bold data sections k hkk]
  refine ⟨reconcile_section_length lex bold k _ _, ?_⟩
  intro i it hit
  exact ⟨(dgetD data k [])[i]?,
    reconcile_section_get? lex bold k (dgetD sections k []) (dgetD data k []) i it hit⟩

/-- Witness for C1 at a concrete one-item batch run on the
all-extractive path. -/
theorem c1_witness :
    ("news" ∈ sectsA.map Prod.fst) ∧
    (dgetD (fallback_summarize lex0 bold0 sectsA) "news" []).length =
      (dgetD sectsA "news" []).length :=
  ⟨by decide,
   (c1_length_and_order jl0 lex0 bold0 none none sectsA
      (fallback_summarize lex0 bold0 sectsA) (by decide) rfl "news" (by decide)).1⟩

/-- C2: the reconciler truncates an over-long candidate array to the
expected count (the result only depends on the first `expected`
candidates), pads a short one with the extractive summaries of exactly
the unmatched trailing input items in order, and in particular with
3 expected items and 2 candidate summaries the final array has length 3
and its third entry is the extractive fallback of the third input item. -/
theorem c2_truncate_pad (lex : Lex) (bold : Bold) (key : String)
    (items : List ContentItem) (got0 : List String) :
    ((reconcile_section lex bold key items got0).length = items.length) ∧
    (items.length < got0.length →
      reconcile_section lex bold key items got0 =
        reconcile_section lex bold key items (got0.take items.length)) ∧
    (got0.length < items.length →
      (reconcile_section lex bold key items got0).length = items.length ∧
      (reconcile_section lex bold key items got0).drop got0.length =
        (items.drop got0.length).map (fallback_item lex bold key)) ∧
    (∀ i1 i2 i3 c1 c2, items = [i1, i2, i3] → got0 = [c1, c2] →
      (reconcile_section lex bold key items got0).length = 3 ∧
      (reconcile_section lex bold key items got0)[2]? =
        some (fallback_item lex bold key i3)) := by
  refine ⟨reconcile_section_length lex bold key items got0, ?_, ?_, ?_⟩
  · intro hlong
    apply List.ext_getElem?
    intro i
    cases hit : items[i]? with
    | none =>
      have hlen : items.length ≤ i := List.getElem?_eq_none_iff.mp hit
      rw [List.getElem?_eq_none (by rw [reconcile_section_length]; exact hlen),
        List.getElem?_eq_none (by rw [reconcile_section_length]; exact hlen)]
    | some it =>
      have hi : i < items.length := by
        rcases List.getElem?_eq_some_iff.mp hit with ⟨hh, _⟩
        exact hh
      rw [reconcile_section_get? lex bold key items got0 i it hit,
        reconcile_section_get? lex bold key items (got0.take items.length) i it hit,
        List.getElem?_take_of_lt hi]
  · intro hshort
    refine ⟨reconcile_section_length lex bold key items got0, ?_⟩
    apply List.ext_getElem?
    intro j
    rw [List.getElem?_drop, List.getElem?_map, List.getElem?_drop]
    cases hit : items[got0.length + j]? with
    | none =>
      have hlen : items.length ≤ got0.length + j := List.getElem?_eq_none_iff.mp hit
      rw [List.getElem?_eq_none (by rw [reconcile_section_length]; exact hlen)]
      rfl
    | some it =>
      rw [reconcile_section_get? lex bold key items got0 (got0.length + j) it hit,
        List.getElem?_eq_none (by omega)]
      rfl
  · intro i1 i2 i3 c1 c2 hitems hgot
    subst hitems
    subst hgot
    refine ⟨?_, ?_⟩
    · rw [reconcile_section_length]
      rfl
    · rw [reconcile_section_get? lex bold key [i1, i2, i3] [c1, c2] 2 i3 rfl]
      rfl

/-- Witness for C2: 3 expected items, 2 candidates. -/
theorem c2_witness :
    (reconcile_section lex0 bold0 "news" [itemA, itemB, itemC] [candOK, candOK]).length = 3 ∧
    (reconcile_section lex0 bold0 "news" [itemA, itemB, itemC] [candOK, candOK])[2]? =
      some (fallback_item lex0 bold0 "news" itemC) :=
  (c2_truncate_pad lex0 bold0 "news" [itemA, itemB, itemC] [candOK, candOK]).2.2.2
    itemA itemB itemC candOK candOK rfl rfl

/-- C3 counterexample: on the spec's example string the validator does
reject, but with the insufficient-bullet-segmentation reason (the
emoji/segment check fires before the vague-filler check, and the
vague-filler patterns expect "discussed", not "discusses"), not with
vague-filler-detected. -/
theorem c3_counterexample :
    validate_summary vagueExample = some Reason.fewBullets ∧
    validate_summary vagueExample ≠ some Reason.vagueFiller :=
  ⟨by decide, by decide⟩

/-- C3 (amended): the validator rejects
`"the episode discusses AI trends and raises questions"` with the
insufficient-bullet-segmentation reason (it has no emoji bullet and no
`<br>` segment, so that check fires first and the vague-filler check is
never reached), and accepts
`"🎯 OpenAI raised $40B in March 2025.<br>📊 Valuation hit $300B."`. -/
theorem c3_amended :
    validate_summary vagueExample = some Reason.fewBullets ∧
    validate_summary validExample = none :=
  ⟨by decide, by decide⟩

/-- C4: when strict parsing of the fence-stripped response fails, the
trailing-separator repair fails, and manual bracket-matching recovery
recovers zero sections, the parse failure propagates out of
`_parse_response` and the whole batch is summarized by the
all-extractive fallback — the same output as when the backend call
itself fails. -/
theorem c4_parse_failure_all_extractive (jl : JL) (lex : Lex) (bold : Bold)
    (api_key : Option String) (resp : String) (sections : Sections)
    (hkey : pyTruthy api_key = true)
    (hprompt : build_prompt_ok sections = true)
    (h1 : jl (strip_code_fences resp) = JLoads.fail)
    (h2 : jl (fixTrailingCommas (strip_code_fences resp)) = JLoads.fail)
    (h3 : extract_arrays_fallback (fixTrailingCommas (strip_code_fences resp)) = none) :
    batch_summarize jl lex bold api_key (some resp) sections =
      some (fallback_summarize lex bold sections) ∧
    batch_summarize jl lex bold api_key (some resp) sections =
      batch_summarize jl lex bold api_key none sections := by
  have hparse : parse_response jl lex bold resp sections = none := by
    simp only [parse_response]
    rw [h1, h2, h3]
  constructor
  · simp [batch_summarize, hkey, hprompt, hparse]
  · simp [batch_summarize, hkey, hprompt, hparse]

/-- Witness for C4: a garbage response, every `json.loads` raising. -/
theorem c4_witness :
    batch_summarize jl0 lex0 bold0 (some "k") (some respBad) sectsA =
      some (fallback_summarize lex0 bold0 sectsA) :=
  (c4_parse_failure_all_extractive jl0 lex0 bold0 (some "k") respBad sectsA
    (by decide) (by decide) rfl rfl (by decide)).1

/-- C5: on any batch whose items carry both string fields,
`batch_summarize` returns (it never raises: the model's `none`, a
`_build_prompt` `KeyError`, is ruled out), with all four section keys
present and every output list exactly as long as the corresponding
input list, for every backend/parse outcome. -/
theorem c5_total_and_length_correct (jl : JL) (lex : Lex) (bold : Bold)
    (api_key backend : Option String) (sections : Sections)
    (hfields : ∀ p ∈ sections, ∀ it ∈ p.2, it.title.isSome ∧ it.raw_text.isSome) :
    ∃ out, batch_summarize jl lex bold api_key backend sections = some out ∧
      out.map Prod.fst = sectionKeys ∧
      ∀ k ∈ sectionKeys, (dgetD out k []).length = (dgetD sections k []).length := by
  have hok : build_prompt_ok sections = true := by
    unfold build_prompt_ok
    apply List.all_eq_true.mpr
    intro k _
    apply List.all_eq_true.mpr
    intro it hit
    have hitm : it ∈ dgetD sections k [] := hit
    unfold dgetD at hitm
    cases hf : sections.find? (fun p => p.1 == k) with
    | none => rw [hf] at hitm; cases hitm
    | some p =>
      rw [hf] at hitm
      exact ((hfields p (List.mem_of_find?_eq_some hf)) it hitm).1
  obtain ⟨out, hout⟩ : ∃ out, batch_summarize jl lex bold api_key backend sections = some out := by
    simp only [batch_summarize, hok]
    split
    · exact ⟨_, rfl⟩
    · rw [if_neg (not_not_intro trivial)]
      cases backend with
      | none => exact ⟨fallback_summarize lex bold sections, rfl⟩
      | some resp =>
        cases hp : parse_response jl lex bold resp sections with
        | some r => exact ⟨r, by simp [hp]⟩
        | none => exact ⟨fallback_summarize lex bold sections, by simp [hp]⟩
  obtain ⟨data, hd⟩ := batch_summarize_shape jl lex bold api_key backend sections out hout
  subst hd
  refine ⟨_, hout, reconcile_all_keys lex bold data sections, ?_⟩
  intro k hk
  rw [reconcile_all_get lex bold data sections k hk, reconcile_section_length]

/-- Witness for C5 on a concrete batch. -/
theorem c5_witness :
    ∃ out, batch_summarize jl0 lex0 bold0 none none sectsA = some out ∧
      out.map Prod.fst = sectionKeys ∧
      ∀ k ∈ sectionKeys, (dgetD out k []).length = (dgetD sectsA k []).length :=
  c5_total_and_length_correct jl0 lex0 bold0 none none sectsA (by decide)

/-- C6 counterexample: with text absent and a title supplied,
`summarize` still returns the empty string — no title-based placeholder
is produced at this level, so "empty only when no title is supplied" is
false of `summarize`. -/
theorem c6_counterexample :
    summarize lex0 bold0 "" 3 "Some Title" = "" ∧ ("Some Title" : String) ≠ "" :=
  ⟨rfl, by decide⟩

/-- C6 (amended): `summarize` is total and returns the empty string for
every empty-or-whitespace input text, regardless of the title; the
title-based placeholder is produced one level up, by the
`_fallback_section` wrapper, whose per-item output is never empty. -/
theorem c6_amended (lex : Lex) (bold : Bold) (n : Nat) (title text : String)
    (key : String) (item : ContentItem) :
    (pyTrim text = "" → summarize lex bold text n title = "") ∧
    fallback_item lex bold key item ≠ "" := by
  constructor
  · intro h
    unfold summarize
    rw [if_pos (Or.inr h)]
  · exact fallback_item_ne_empty lex bold key item

/-- Witness for C6 (amended). -/
theorem c6_witness :
    summarize lex0 bold0 "   " 3 "T" = "" ∧
    fallback_item lex0 bold0 "news" itemA ≠ "" :=
  ⟨(c6_amended lex0 bold0 3 "T" "   " "news" itemA).1 (by decide),
   (c6_amended lex0 bold0 3 "T" "   " "news" itemA).2⟩

/-- C7: a summary produced by the extractive fallback — for tail
padding (no candidate at this position) or single-item replacement
(candidate rejected) — is what ends up in the final output,
unconditionally: the conclusion holds with no assumption on what
`_validate_summary` would say about that fallback summary. -/
theorem c7_fallback_accepted (lex : Lex) (bold : Bold) (key : String)
    (items : List ContentItem) (got0 : List String) (i : Nat) (it : ContentItem)
    (hit : items[i]? = some it) :
    (got0.length ≤ i →
      (reconcile_section lex bold key items got0)[i]? =
        some (fallback_item lex bold key it)) ∧
    (∀ c r, got0[i]? = some c → validate_summary c = some r →
      (reconcile_section lex bold key items got0)[i]? =
        some (fallback_item lex bold key it)) := by
  constructor
  · intro hge
    rw [reconcile_section_get? lex bold key items got0 i it hit,
      List.getElem?_eq_none hge]
    rfl
  · intro c r hc hv
    rw [reconcile_section_get? lex bold key items got0 i it hit, hc]
    simp [reconcile_item, hv]

/-- Witness for C7: the padded entry is accepted even though the
validator would reject it (it fails the emoji/segment check). -/
theorem c7_witness :
    (reconcile_section lex0 bold0 "news" [itemA] [])[0]? =
      some (fallback_item lex0 bold0 "news" itemA) ∧
    validate_summary (fallback_item lex0 bold0 "news" itemA) =
      some Reason.fewBullets :=
  ⟨(c7_fallback_accepted lex0 bold0 "news" [itemA] [] 0 itemA rfl).1 (by decide),
   by decide⟩

/-- C8: reconciliation preserves positional alignment — position `i` of
the final array is a function of input item `i` and candidate `i` only:
a valid candidate is kept unchanged, and any modification of the
candidate list away from position `i` leaves position `i`'s summary
untouched. -/
theorem c8_positional_alignment (lex : Lex) (bold : Bold) (key : String)
    (items : List ContentItem) (got0 : List String) (i : Nat) (it : ContentItem)
    (hit : items[i]? = some it) :
    ((reconcile_section lex bold key items got0)[i]? =
      some (reconcile_item lex bold key it got0[i]?)) ∧
    (∀ c, got0[i]? = some c → validate_summary c = none →
      (reconcile_section lex bold key items got0)[i]? = some c) ∧
    (∀ got1 : List String, got1[i]? = got0[i]? →
      (reconcile_section lex bold key items got1)[i]? =
        (reconcile_section lex bold key items got0)[i]?) := by
  refine ⟨reconcile_section_get? lex bold key items got0 i it hit, ?_, ?_⟩
  · intro c hc hv
    rw [reconcile_section_get? lex bold key items got0 i it hit, hc]
    simp [reconcile_item, hv]
  · intro got1 hg
    rw [reconcile_section_get? lex bold key items got1 i it hit,
      reconcile_section_get? lex bold key items got0 i it hit, hg]

/-- Witness for C8: a valid candidate survives unchanged. -/
theorem c8_witness :
    (reconcile_section lex0 bold0 "news" [itemA] [candOK])[0]? = some candOK :=
  (c8_positional_alignment lex0 bold0 "news" [itemA] [candOK] 0 itemA rfl).2.1
    candOK rfl (by decide)

/-- C9: with no backend credential configured (unset or empty), the
output is the all-extractive fallback of the input, and it does not
depend on the backend response or the `json.loads` behaviour at all —
two runs on the same input agree. -/
theorem c9_no_backend_deterministic (jl : JL) (lex : Lex) (bold : Bold)
    (api_key backend : Option String) (sections : Sections)
    (hkey : pyTruthy api_key = false) :
    batch_summarize jl lex bold api_key backend sections =
      some (fallback_summarize lex bold sections) ∧
    ∀ (jl2 : JL) (backend2 : Option String),
      batch_summarize jl2 lex bold api_key backend2 sections =
        batch_summarize jl lex bold api_key backend sections := by
  constructor
  · simp [batch_summarize, hkey]
  · intro jl2 b2
    simp [batch_summarize, hkey]

/-- Witness for C9 with the empty-string credential (falsy in Python). -/
theorem c9_witness :
    batch_summarize jl0 lex0 bold0 (some "") none sectsA =
      some (fallback_summarize lex0 bold0 sectsA) :=
  (c9_no_backend_deterministic jl0 lex0 bold0 (some "") none sectsA (by decide)).1

/-- C10: every completed run returns exactly the four section keys, in
order; a key absent from the input maps to the empty list; and keys of
the input outside the four are ignored — two inputs agreeing on the
four section keys produce identical outputs. -/
theorem c10_output_keys (jl : JL) (lex : Lex) (bold : Bold)
    (api_key backend : Option String) (sections : Sections)
    (out : List (String × List String)) (k : String)
    (hrun : batch_summarize jl lex bold api_key backend sections = some out) :
    out.map Prod.fst = sectionKeys ∧
    (k ∈ sectionKeys → k ∉ sections.map Prod.fst → dgetD out k [] = []) ∧
    (∀ sections2 : Sections,
      (∀ k2 ∈ sectionKeys, dgetD sections k2 [] = dgetD sections2 k2 []) →
      batch_summarize jl lex bold api_key backend sections =
        batch_summarize jl lex bold api_key backend sections2) := by
  obtain ⟨data, hd⟩ := batch_summarize_shape jl lex bold api_key backend sections out hrun
  subst hd
  refine ⟨reconcile_all_keys lex bold data sections, ?_, ?_⟩
  · intro hk hnot
    rw [reconcile_all_get lex bold data sections k hk]
    have hempty : dgetD sections k [] = [] := by
      unfold dgetD
      cases hf : sections.find? (fun p => p.1 == k) with
      | none => rfl
      | some q =>
        exfalso
        apply hnot
        apply List.mem_map.mpr
        have hq := List.find?_some hf
        have hmem : q ∈ sections := List.mem_of_find?_eq_some hf
        exact ⟨q, hmem, eq_of_beq hq⟩
    rw [hempty]
    have hlen := reconcile_section_length lex bold k [] (dgetD data k [])
    simp only [List.length_nil] at hlen
    exact List.length_eq_zero.mp hlen
  · intro s2 hagree
    exact batch_summarize_congr jl lex bold api_key backend sections s2 hagree

/-- Witness for C10 on a batch with an extra key. -/
theorem c10_witness :
    (fallback_summarize lex0 bold0 sectsX).map Prod.fst = sectionKeys ∧
    dgetD (fallback_summarize lex0 bold0 sectsX) "podcasts" [] = [] :=
  ⟨(c10_output_keys jl0 lex0 bold0 none none sectsX
      (fallback_summarize lex0 bold0 sectsX) "podcasts" rfl).1,
   (c10_output_keys jl0 lex0 bold0 none none sectsX
      (fallback_summarize lex0 bold0 sectsX) "podcasts" rfl).2.1
      (by decide) (by decide)⟩

end Newsletter
